import Mathlib

/-!
Formal model of the VK long-poll bot of the Stitch Cafe game
(source file `vk_lp_main.py`), with proofs about order generation,
special-order handling, the command dispatcher and the long-poll loop.

Modelling conventions:
* dish point values are Python integers, modelled as `Int`;
* randomness (`random.choice`, `random.shuffle`) is modelled by
  quantifying over the chosen index and over a permutation of the pool;
* Python exceptions and the unbounded `while` loop of the backfill phase
  are modelled with `Except` and an explicit fuel parameter: a result of
  `.error .fuel` for every fuel bound means the loop does not terminate;
* repository modules that are not among the given sources
  (`data/dishes.py`, `data/special_orders.py`, `database.py`,
  `utils.py`, `data/texts.py`) are modelled from the specification,
  either as parameters or as definitions explicitly marked as such.
-/

/-- A dish: (name, point value). Point values are Python ints (`Int`). -/
abbrev Dish := String × Int

/-- The dish catalog `DISHES_BY_LEVEL`, a Python dict from level to a list
of dishes. Modelled from the spec: `data/dishes.py` is not among the
sources; the spec (§2, §9) only says dishes are grouped by unlock level,
so the catalog is an arbitrary partial map. `none` models an absent key. -/
abbrev Catalog := Nat → Option (List Dish)

/-- `opened` in `generate_regular_order`: the concatenation of
`DISHES_BY_LEVEL.get(lv, [])` for `lv in range(0, dish_level + 1)`. -/
def openedPool (cat : Catalog) (dishLevel : Nat) : List Dish :=
  ((List.range (dishLevel + 1)).map (fun lv => (cat lv).getD [])).flatten

/-- `current_pool = DISHES_BY_LEVEL.get(dish_level, DISHES_BY_LEVEL[0])`.
Python evaluates the default argument `DISHES_BY_LEVEL[0]` eagerly, so a
missing level-0 key raises `KeyError` (modelled as `none`). -/
def currentPool (cat : Catalog) (dishLevel : Nat) : Option (List Dish) :=
  match cat 0 with
  | none => none
  | some l0 => some ((cat dishLevel).getD l0)

/-- `pool = [d for d in opened if d != cur]`, the list that
`random.shuffle` permutes before the greedy phase. -/
def remainderPool (cat : Catalog) (dishLevel : Nat) (cur : Dish) : List Dish :=
  (openedPool cat dishLevel).filter (fun d => d ≠ cur)

/-- The greedy phase:
`for d in pool: if d not in take and len(take) < 3: take.append(d)`. -/
def greedyTake : List Dish → List Dish → List Dish
  | take, [] => take
  | take, d :: rest =>
      if d ∉ take ∧ take.length < 3 then greedyTake (take ++ [d]) rest
      else greedyTake take rest

/-- One pass of the backfill `for` loop:
`for d in DISHES_BY_LEVEL[0]: if d not in take: take.append(d);
if len(take) == 3: break`. -/
def backfillPass : List Dish → List Dish → List Dish
  | take, [] => take
  | take, d :: rest =>
      let t := if d ∈ take then take else take ++ [d]
      if t.length = 3 then t else backfillPass t rest

/-- Outcomes of `generate_regular_order` other than a normal return:
a `KeyError` on `DISHES_BY_LEVEL[0]`, an `IndexError` from
`random.choice` on an empty pool, or exhaustion of the fuel that bounds
the `while len(take) < 3` loop. -/
inductive GenErr
  | keyError
  | indexError
  | fuel
  deriving DecidableEq

/-- The `while len(take) < 3:` loop around `backfillPass`, bounded by
fuel. `.error .fuel` for every fuel bound means the loop diverges. -/
def backfillLoop (l0 : List Dish) : Nat → List Dish → Except GenErr (List Dish)
  | 0, _ => .error .fuel
  | n + 1, take =>
      if take.length < 3 then backfillLoop l0 n (backfillPass take l0)
      else .ok take

/-- `generate_regular_order(level)` from `vk_lp_main.py`. The call
`random.choice(current_pool)` is modelled by the index `choiceIdx`, and
`random.shuffle(pool)` by the parameter `shuffled`, which theorems
constrain to be a permutation of `remainderPool`. -/
def generate_regular_order (cat : Catalog) (level : Nat) (choiceIdx : Nat)
    (shuffled : List Dish) (fuelN : Nat) : Except GenErr (List Dish) :=
  let dishLevel := min level 3
  match currentPool cat dishLevel with
  | none => .error .keyError
  | some cp =>
      match cp[choiceIdx]? with
      | none => .error .indexError
      | some cur =>
          let take := greedyTake [cur] shuffled
          if take.length < 3 then
            match cat 0 with
            | none => .error .keyError
            | some l0 =>
                match backfillLoop l0 fuelN take with
                | .ok t => .ok (t.take 3)
                | .error e => .error e
          else .ok (take.take 3)

/-- Sum of the point values of a dish list. -/
def sumVals (l : List Dish) : Int := (l.map Prod.snd).sum

/-- The `half_new_order` computation from `_vk_new_order_logic`
(lines 277-298 of `vk_lp_main.py`): halve every value with
`max(1, crosses // 2)` and, when the halved sum misses
`total // 2`, add the difference to the first dish, again clamped by
`max(1, ...)`. Returns the list that is persisted. -/
def halfNewOrder (dishes : List Dish) : List Dish :=
  let total := sumVals dishes
  let halfTotal := total / 2
  let halfDishes := dishes.map (fun d => (d.1, max 1 (d.2 / 2)))
  let halfCrosses := sumVals halfDishes
  match halfDishes with
  | [] => []
  | (n0, v0) :: rest =>
      if halfCrosses ≠ halfTotal then
        (n0, max 1 (v0 + (halfTotal - halfCrosses))) :: rest
      else (n0, v0) :: rest

/-- The four achievement flags, as passed to `check_special_order` in the
`user_flags` dict built in `_vk_new_order_logic`. -/
structure UserFlags where
  has_student_done : Bool
  has_critic_done : Bool
  has_dirty_plate_done : Bool
  has_second_chef_done : Bool
  deriving DecidableEq

/-- A row of the `users` table as used by `_vk_new_order_logic` and
`handle_new`. -/
structure UserRec where
  user_id : Int
  first_name : String
  level : Nat
  total_orders : Nat
  has_student_done : Bool
  has_critic_done : Bool
  has_dirty_plate_done : Bool
  has_second_chef_done : Bool
  deriving DecidableEq

/-- The `user_flags` dict built from the user row in
`_vk_new_order_logic`. -/
def flagsOf (u : UserRec) : UserFlags :=
  ⟨u.has_student_done, u.has_critic_done, u.has_dirty_plate_done,
    u.has_second_chef_done⟩

/-- The `type` field of a special-order directive. Modelled from the
spec (§4.2): `data/special_orders.py` is not among the sources; the spec
names exactly the three directive kinds matched by `_vk_new_order_logic`
(`regular` with a fixed dish, `double_previous`, `half_new_order`). -/
inductive SpecialType
  | regular
  | double_previous
  | half_new_order
  deriving DecidableEq

/-- A special-order directive (`order_config`). Modelled from the spec
(§4.2): only the `type` field and, for the fixed-dish kind, the `dish`
field are consumed by `_vk_new_order_logic`; text templates are opaque. -/
structure OrderConfig where
  type : SpecialType
  dish : Dish
  deriving DecidableEq

/-- `check_special_order(order_index, flags)`. Modelled from the spec
(§4.2): `data/special_orders.py` is not among the sources; the spec says
it is a pure map from the 1-based order index and the flags to an
optional (tag, directive) pair, so it is kept as a parameter. -/
abbrev CheckSpecial := Nat → UserFlags → Option (String × OrderConfig)

/-- The Last Completed Order of a user, as returned by
`get_last_order`: dish list, point total, optional special tag. -/
structure LastOrder where
  dishes : List Dish
  crosses : Int
  tag : Option String
  deriving DecidableEq

/-- The suppression test of `_vk_new_order_logic` (lines 239-244):
`last_order` is fetched only when `total_orders > 0`, and the flag is set
when it exists and carries a tag. -/
def lastWasSpecial (u : UserRec) (lastOrder : Option LastOrder) : Bool :=
  decide (0 < u.total_orders) &&
    (match lastOrder with
     | some lo => lo.tag.isSome
     | none => false)

/-- The trailing regular-order block of `_vk_new_order_logic`
(lines 305-319): generate a regular order and persist it with no tag.
Returns the (dishes, tag) pair passed to `save_active_order`. -/
def regularOrderSave (cat : Catalog) (level : Nat) (choiceIdx : Nat)
    (shuffled : List Dish) (fuelN : Nat) :
    Except GenErr (List Dish × Option String) :=
  match generate_regular_order cat level choiceIdx shuffled fuelN with
  | .ok ds => .ok (ds, none)
  | .error e => .error e

/-- `_vk_new_order_logic` reduced to its persistent effect: every branch
of the source ends in exactly one `save_active_order(db, uid, dishes,
tag)` call, and this function returns that (dishes, tag) pair. The two
`get_last_order` reads of the source see the same database row, modelled
by the single `lastOrder` argument. A `double_previous` directive with
no last order falls through to the trailing regular-order block, exactly
as the missing `return` in the source does. -/
def vkNewOrderLogic (cs : CheckSpecial) (u : UserRec)
    (lastOrder : Option LastOrder) (cat : Catalog) (choiceIdx : Nat)
    (shuffled : List Dish) (fuelN : Nat) :
    Except GenErr (List Dish × Option String) :=
  let idx := u.total_orders + 1
  let special := if lastWasSpecial u lastOrder then none else cs idx (flagsOf u)
  match special with
  | some (tag, cfg) =>
      match cfg.type with
      | .double_previous =>
          match lastOrder with
          | some lo => .ok (lo.dishes.map (fun d => (d.1, d.2 * 2)), some tag)
          | none => regularOrderSave cat u.level choiceIdx shuffled fuelN
      | .half_new_order =>
          match generate_regular_order cat u.level choiceIdx shuffled fuelN with
          | .ok ds => .ok (halfNewOrder ds, some tag)
          | .error e => .error e
      | .regular => .ok ([cfg.dish], some tag)
  | none => regularOrderSave cat u.level choiceIdx shuffled fuelN

/-- An Active Order row: dish list and optional special tag. -/
structure ActiveOrder where
  dishes : List Dish
  tag : Option String
  deriving DecidableEq

/-- The persistence store. Modelled from the spec: `database.py` is not
among the sources; the spec (§3, §6) enumerates the record kinds (users,
at most one Active Order per user, one Last Completed Order per user),
modelled as association lists keyed by user id. -/
structure Db where
  users : List UserRec
  active : List (Int × ActiveOrder)
  lastOrders : List (Int × LastOrder)
  deriving DecidableEq

/-- `fetch_user(db, user_id, first_name)`. Modelled from the spec:
`database.py` is not among the sources; spec §3 and §6 say the user is
created on first observed interaction (fetch-or-create) and that an
existing user is mutated only by the Progression Engine, so a fetch of an
existing user returns the row and leaves the store unchanged. -/
def fetch_user (db : Db) (uid : Int) (firstName : String) : Db × UserRec :=
  match db.users.find? (fun u => u.user_id == uid) with
  | some u => (db, u)
  | none =>
      let u : UserRec := ⟨uid, firstName, 0, 0, false, false, false, false⟩
      ({ db with users := db.users ++ [u] }, u)

/-- `get_active_order(db, user_id)`. Modelled from the spec (§6:
get/set Active Order for a user). -/
def get_active_order (db : Db) (uid : Int) : Option ActiveOrder :=
  (db.active.find? (fun p => p.1 == uid)).map (fun p => p.2)

/-- `get_last_order(db, user_id)`. Modelled from the spec (§6: get Last
Completed Order for a user). -/
def get_last_order (db : Db) (uid : Int) : Option LastOrder :=
  (db.lastOrders.find? (fun p => p.1 == uid)).map (fun p => p.2)

/-- `save_active_order(db, user_id, dishes, tag)`. Modelled from the
spec (§6: set Active Order for a user): replaces the user's Active
Order. -/
def save_active_order (db : Db) (uid : Int) (dishes : List Dish)
    (tag : Option String) : Db :=
  { db with
    active := (uid, ⟨dishes, tag⟩) :: db.active.filter (fun p => p.1 != uid) }

/-- Reply texts sent by the handlers. The concrete strings live in
`data/texts.py`, which is not among the sources; each template is
modelled as an opaque token (spec §1 treats templating as an external
collaborator). -/
inductive MsgText
  | alreadyHasOrder
  | newOrderText
  | adminOnly
  | emptyDb
  | statsTable
  | topSentDm
  | topDmFail
  | unknownCommand
  deriving DecidableEq

/-- `handle_new(user_id, peer_id)` reduced to its store effect and the
reply it sends: fetch the user, reject when an Active Order exists,
otherwise run `_vk_new_order_logic` (which persists the new order) and
reply with the order text. -/
def handle_new (cs : CheckSpecial) (db : Db) (uid peer : Int)
    (firstName : String) (cat : Catalog) (choiceIdx : Nat)
    (shuffled : List Dish) (fuelN : Nat) :
    Except GenErr (Db × List (Int × MsgText)) :=
  let fu := fetch_user db uid firstName
  let db1 := fu.1
  let user := fu.2
  match get_active_order db1 user.user_id with
  | some _ => .ok (db1, [(peer, .alreadyHasOrder)])
  | none =>
      match vkNewOrderLogic cs user (get_last_order db1 user.user_id) cat
          choiceIdx shuffled fuelN with
      | .ok (dishes, tag) =>
          .ok (save_active_order db1 user.user_id dishes tag,
            [(peer, .newOrderText)])
      | .error e => .error e

/-- Log of `messages.send` attempts: a call counter and, per attempt,
the destination peer, the text token, and whether the underlying VK API
call succeeded. -/
structure SendLog where
  calls : Nat
  sent : List (Int × MsgText × Bool)
  deriving DecidableEq

/-- The outcome of the VK API call inside `send_message`: the behaviour
`fails` says whether the n-th `messages.send` call raises. -/
def vk_api_send (fails : Nat → Bool) (n : Nat) : Except String Unit :=
  if fails n then .error "vk api error" else .ok ()

/-- `send_message(peer_id, text)` (lines 151-163): the whole body sits
in `try: ... except Exception: logger.error(...)`, so every failure of
the API call is swallowed and the function always returns normally.
The `Except` result type mirrors Python exception flow: the proof
obligations show it is always `.ok`. -/
def send_message (fails : Nat → Bool) (st : SendLog) (peer : Int)
    (t : MsgText) : Except String SendLog :=
  match vk_api_send fails st.calls with
  | .ok _ => .ok ⟨st.calls + 1, st.sent ++ [(peer, t, true)]⟩
  | .error _ => .ok ⟨st.calls + 1, st.sent ++ [(peer, t, false)]⟩

/-- The `try:` block of `handle_top` (lines 489-493): send the body text
to the admin privately; if invoked from a group, send the
acknowledgment to the group. -/
def topTryBlock (fails : Nat → Bool) (uid peer : Int) (st : SendLog)
    (body : MsgText) : Except String SendLog := do
  let st1 ← send_message fails st uid body
  if peer ≠ uid then send_message fails st1 peer .topSentDm else pure st1

/-- The `try/except` of `handle_top` (lines 489-497): on an exception
from the block, send the failure notice to the group. The `except`
branch is kept faithfully even though `send_message` never raises. -/
def topTry (fails : Nat → Bool) (uid peer : Int) (st : SendLog)
    (body : MsgText) : SendLog :=
  match topTryBlock fails uid peer st body with
  | .ok s => s
  | .error _ =>
      if peer ≠ uid then
        match send_message fails st peer .topDmFail with
        | .ok s => s
        | .error _ => st
      else st

/-- A row of the stats query in `handle_top`; only its presence matters
to the control flow, the rendered table is the opaque `statsTable`
token. -/
structure StatsRow where
  first_name : String
  level : Nat
  total_orders : Nat
  deriving DecidableEq

/-- `handle_top(user_id, peer_id)` reduced to its send effects. The
admin check `is_admin` lives in `utils.py`, which is not among the
sources; modelled from the spec (§4.5: caller identity string-matched
against a configured allow-list) as the boolean `admin`. -/
def handle_top (fails : Nat → Bool) (admin : Bool) (rows : List StatsRow)
    (uid peer : Int) (st : SendLog) : SendLog :=
  if admin then
    if rows.isEmpty then topTry fails uid peer st .emptyDb
    else topTry fails uid peer st .statsTable
  else
    match send_message fails st peer .adminOnly with
    | .ok s => s
    | .error _ => st

/-- The long-poll cursor triple returned by `get_longpoll_server`. -/
structure Cursor where
  server : String
  key : String
  ts : String
  deriving DecidableEq

/-- An inbound message object (`upd["object"]["message"]`): `none`
fields model absent keys or non-string / non-int values. -/
structure VkMsg where
  text : Option String
  payload : Option String
  from_id : Option Int
  peer_id : Option Int
  deriving DecidableEq

/-- One long-poll update. -/
structure VkUpdate where
  type : String
  msg : VkMsg
  deriving DecidableEq

/-- A decoded long-poll response body. -/
structure LPData where
  failed : Option Int
  ts : Option String
  updates : List VkUpdate
  deriving DecidableEq

/-- Outcome of the poll request in one loop iteration: either a
`requests` / JSON-decode exception, or a decoded body. -/
inductive PollOutcome
  | reqError
  | ok (data : LPData)

/-- The command vocabulary of the dispatcher. -/
inductive Cmd
  | new
  | my
  | done
  | start
  | top10
  | top
  | reset
  deriving DecidableEq

/-- What the dispatcher decides to do with one `message_new` update. -/
inductive Dispatch
  | handler (c : Cmd) (from_id peer : Int)
  | unknownReply (peer : Int)
  | skip
  deriving DecidableEq

/-- Python `str.strip()` whitespace characters (ASCII fragment). -/
def isPySpace (c : Char) : Bool :=
  c == ' ' || c == '\t' || c == '\n' || c == '\r' || c == '\x0b' || c == '\x0c'

/-- Python `str.strip()`: drop leading and trailing whitespace. -/
def pyStrip (s : String) : String :=
  String.mk (((s.toList.dropWhile isPySpace).reverse.dropWhile
    isPySpace).reverse)

/-- The routing of one `message_new` update (lines 601-669):
drop updates with empty stripped text, with non-int ids, or from a
non-allowed peer; otherwise parse the button payload and match the
command prefixes in source order. `parsePayload` models
`json.loads(payload).get("cmd")` lowered to a string (`none` for a
decode error or a non-dict payload); `json` is Python stdlib, kept
abstract. -/
def routeMessage (parsePayload : String → Option String)
    (allowedPeer : Option Int) (m : VkMsg) : Dispatch :=
  let text := pyStrip (m.text.getD "")
  if text = "" then .skip
  else
    match m.from_id, m.peer_id with
    | some f, some p =>
        if (match allowedPeer with
            | some a => decide (p ≠ a)
            | none => false) then .skip
        else
          let cmd : Option String := m.payload.bind parsePayload
          let lower := text.toLower
          if cmd == some "new" || lower.startsWith "/new" then .handler .new f p
          else if cmd == some "my" || lower.startsWith "/my" then
            .handler .my f p
          else if cmd == some "done" || lower.startsWith "/done" then
            .handler .done f p
          else if lower.startsWith "/start" then .handler .start f p
          else if lower.startsWith "/top10" then .handler .top10 f p
          else if lower.startsWith "/top" then .handler .top f p
          else if lower.startsWith "/reset" then .handler .reset f p
          else if lower.startsWith "/" then .unknownReply p
          else .skip
    | _, _ => .skip

/-- The environment of one loop iteration: the poll outcome, what
`get_longpoll_server` would do if called, the outcome of running a
command handler (`asyncio.run(handle_*)` can raise out of the loop),
the payload decoder, and the configured allowed peer. -/
structure IterEnv where
  poll : PollOutcome
  refetch : Except String Cursor
  runHandler : Cmd → Int → Int → Except String Unit
  parsePayload : String → Option String
  allowedPeer : Option Int

/-- Processing of one batch of updates (lines 601-669). The
unknown-command reply goes through `send_message`, which swallows its
own failures, so it cannot raise; a raising command handler propagates
out of the `for` loop uncaught. -/
def processUpdates (env : IterEnv) : List VkUpdate → Except String Unit
  | [] => .ok ()
  | u :: rest =>
      if u.type ≠ "message_new" then processUpdates env rest
      else
        match routeMessage env.parsePayload env.allowedPeer u.msg with
        | .skip => processUpdates env rest
        | .unknownReply _ => processUpdates env rest
        | .handler c f p =>
            match env.runHandler c f p with
            | .ok _ => processUpdates env rest
            | .error e => .error e

/-- The ways one iteration of `longpoll_loop` can raise out of the
`while True:` body (and hence terminate the loop). -/
inductive LoopCrash
  | refetchFailed (e : String)
  | handlerFailed (e : String)
  deriving DecidableEq

/-- One iteration of the `while True:` body of `longpoll_loop`
(lines 568-669). The poll request and JSON decode are inside
`try/except`, and on that path the cursor refetch is inside its own
inner `try/except` (a failed refetch keeps the stale cursor after a
sleep). The refetch on a `failed` code other than 1 and the command
handlers are NOT inside any `try`, so their exceptions escape the
body. -/
def loopIter (env : IterEnv) (cur : Cursor) : Except LoopCrash Cursor :=
  match env.poll with
  | .reqError =>
      match env.refetch with
      | .ok c => .ok c
      | .error _ => .ok cur
  | .ok data =>
      match data.failed with
      | some code =>
          if code = 1 then .ok { cur with ts := data.ts.getD cur.ts }
          else
            match env.refetch with
            | .ok c => .ok c
            | .error e => .error (.refetchFailed e)
      | none =>
          let cur2 : Cursor := { cur with ts := data.ts.getD cur.ts }
          match processUpdates env data.updates with
          | .ok _ => .ok cur2
          | .error e => .error (.handlerFailed e)

lemma greedyTake_mem_of_mem (rest : List Dish) :
    ∀ take : List Dish, ∀ x ∈ take, x ∈ greedyTake take rest := by
  induction rest with
  | nil => intro take x hx; simpa [greedyTake] using hx
  | cons d rest ih =>
      intro take x hx
      by_cases h : d ∉ take ∧ take.length < 3
      · rw [greedyTake, if_pos h]
        exact ih _ x (by simp [hx])
      · rw [greedyTake, if_neg h]
        exact ih _ x hx

lemma mem_greedyTake (rest : List Dish) :
    ∀ take : List Dish, ∀ x ∈ greedyTake take rest, x ∈ take ∨ x ∈ rest := by
  induction rest with
  | nil => intro take x hx; left; simpa [greedyTake] using hx
  | cons d rest ih =>
      intro take x hx
      by_cases h : d ∉ take ∧ take.length < 3
      · rw [greedyTake, if_pos h] at hx
        rcases ih _ x hx with hm | hm
        · rcases List.mem_append.mp hm with hm | hm
          · exact Or.inl hm
          · simp at hm; simp [hm]
        · simp [hm]
      · rw [greedyTake, if_neg h] at hx
        rcases ih _ x hx with hm | hm
        · exact Or.inl hm
        · simp [hm]

lemma greedyTake_length_le (rest : List Dish) :
    ∀ take : List Dish, take.length ≤ 3 →
      (greedyTake take rest).length ≤ 3 := by
  induction rest with
  | nil => intro take h; simpa [greedyTake] using h
  | cons d rest ih =>
      intro take h
      by_cases hc : d ∉ take ∧ take.length < 3
      · rw [greedyTake, if_pos hc]
        exact ih _ (by have h2 := hc.2; simp only [List.length_append,
          List.length_cons, List.length_nil]; omega)
      · rw [greedyTake, if_neg hc]
        exact ih _ h

lemma greedyTake_nodup (rest : List Dish) :
    ∀ take : List Dish, take.Nodup → (greedyTake take rest).Nodup := by
  induction rest with
  | nil => intro take h; simpa [greedyTake] using h
  | cons d rest ih =>
      intro take h
      by_cases hc : d ∉ take ∧ take.length < 3
      · rw [greedyTake, if_pos hc]
        exact ih _ (by simp [List.nodup_append, h, hc.1])
      · rw [greedyTake, if_neg hc]
        exact ih _ h

lemma greedyTake_length_mono (rest : List Dish) :
    ∀ take : List Dish, take.length ≤ (greedyTake take rest).length := by
  induction rest with
  | nil => intro take; simp [greedyTake]
  | cons d rest ih =>
      intro take
      by_cases hc : d ∉ take ∧ take.length < 3
      · rw [greedyTake, if_pos hc]
        calc take.length ≤ (take ++ [d]).length := by simp
          _ ≤ _ := ih _
      · rw [greedyTake, if_neg hc]
        exact ih _

lemma greedyTake_full (rest : List Dish) :
    ∀ take : List Dish, take.length ≤ 3 →
      (greedyTake take rest).length = 3 ∨
        ∀ x ∈ take ++ rest, x ∈ greedyTake take rest := by
  induction rest with
  | nil =>
      intro take _
      right
      intro x hx
      simpa [greedyTake] using (by simpa using hx : x ∈ take)
  | cons d rest ih =>
      intro take hlen
      by_cases hc : d ∉ take ∧ take.length < 3
      · rw [greedyTake, if_pos hc]
        rcases ih (take ++ [d]) (by have h2 := hc.2; simp only
          [List.length_append, List.length_cons, List.length_nil]; omega)
          with h3 | hall
        · exact Or.inl h3
        · right
          intro x hx
          rcases List.mem_append.mp hx with hm | hm
          · exact hall x (by simp [hm])
          · rcases List.mem_cons.mp hm with hm | hm
            · exact hall x (by simp [hm])
            · exact hall x (by simp [hm])
      · rw [greedyTake, if_neg hc]
        rcases Decidable.em (take.length = 3) with h3 | hne3
        · left
          have h1 : (greedyTake take rest).length ≤ 3 :=
            greedyTake_length_le rest take hlen
          have h2 : take.length ≤ (greedyTake take rest).length :=
            greedyTake_length_mono rest take
          omega
        · -- the condition failed but length < 3, hence d ∈ take
          have hd : d ∈ take := by
            by_contra hdn
            exact hc ⟨hdn, by omega⟩
          rcases ih take hlen with h3 | hall
          · exact Or.inl h3
          · right
            intro x hx
            rcases List.mem_append.mp hx with hm | hm
            · exact hall x (by simp [hm])
            · rcases List.mem_cons.mp hm with hm | hm
              · exact hall x (by simp [hm, hd])
              · exact hall x (by simp [hm])

lemma mem_openedPool_of_mem_cat (cat : Catalog) (dishLevel lv : Nat)
    (hlv : lv ≤ dishLevel) {d : Dish} (hd : d ∈ (cat lv).getD []) :
    d ∈ openedPool cat dishLevel := by
  unfold openedPool
  rw [List.mem_flatten]
  refine ⟨(cat lv).getD [], ?_, hd⟩
  exact List.mem_map_of_mem _ (List.mem_range.mpr (by omega))

lemma currentPool_subset (cat : Catalog) (dishLevel : Nat)
    {cp : List Dish} (hcp : currentPool cat dishLevel = some cp)
    {d : Dish} (hd : d ∈ cp) : d ∈ openedPool cat dishLevel := by
  unfold currentPool at hcp
  rcases h0 : cat 0 with _ | l0
  · rw [h0] at hcp; exact absurd hcp (by simp)
  · rw [h0] at hcp
    simp only [Option.some.injEq] at hcp
    rcases hdl : cat dishLevel with _ | l
    · rw [hdl] at hcp
      simp only [Option.getD_none] at hcp
      subst hcp
      exact mem_openedPool_of_mem_cat cat dishLevel 0 (Nat.zero_le _)
        (by simp [h0, hd])
    · rw [hdl] at hcp
      simp only [Option.getD_some] at hcp
      subst hcp
      exact mem_openedPool_of_mem_cat cat dishLevel dishLevel le_rfl
        (by simp [hdl, hd])

lemma mem_remainderPool (cat : Catalog) (dishLevel : Nat) (cur x : Dish) :
    x ∈ remainderPool cat dishLevel cur ↔
      x ∈ openedPool cat dishLevel ∧ x ≠ cur := by
  simp [remainderPool]

lemma toFinset_opened_eq (cat : Catalog) (dishLevel : Nat) (cur : Dish)
    (hcur : cur ∈ openedPool cat dishLevel) :
    (openedPool cat dishLevel).toFinset =
      (cur :: remainderPool cat dishLevel cur).toFinset := by
  ext x
  simp only [List.toFinset_cons, Finset.mem_insert, List.mem_toFinset,
    mem_remainderPool]
  constructor
  · intro hx
    rcases Decidable.em (x = cur) with h | h
    · exact Or.inl h
    · exact Or.inr ⟨hx, h⟩
  · intro hx
    rcases hx with h | h
    · exact h ▸ hcur
    · exact h.1

lemma anchor_shuffled_card (cat : Catalog) (dishLevel : Nat) (cur : Dish)
    (shuffled : List Dish) (hcur : cur ∈ openedPool cat dishLevel)
    (hsh : shuffled.Perm (remainderPool cat dishLevel cur)) :
    (cur :: shuffled).toFinset.card =
      (openedPool cat dishLevel).toFinset.card := by
  have h1 : (cur :: shuffled).toFinset =
      (cur :: remainderPool cat dishLevel cur).toFinset :=
    List.toFinset_eq_of_perm _ _ (hsh.cons cur)
  rw [h1, ← toFinset_opened_eq cat dishLevel cur hcur]

lemma greedy_length_eq_three (cat : Catalog) (dishLevel : Nat) (cur : Dish)
    (shuffled : List Dish) (hcur : cur ∈ openedPool cat dishLevel)
    (hsh : shuffled.Perm (remainderPool cat dishLevel cur))
    (hbig : 3 ≤ (openedPool cat dishLevel).dedup.length) :
    (greedyTake [cur] shuffled).length = 3 := by
  have hle : (greedyTake [cur] shuffled).length ≤ 3 :=
    greedyTake_length_le shuffled [cur] (by simp)
  rcases greedyTake_full shuffled [cur] (by simp) with h3 | hall
  · exact h3
  · have hsub : (cur :: shuffled).toFinset ⊆
        (greedyTake [cur] shuffled).toFinset := by
      intro x hx
      rw [List.mem_toFinset] at hx ⊢
      exact hall x (by simpa using hx)
    have hcard : 3 ≤ (greedyTake [cur] shuffled).toFinset.card := by
      have h1 := Finset.card_le_card hsub
      have h2 := anchor_shuffled_card cat dishLevel cur shuffled hcur hsh
      have h3 : (openedPool cat dishLevel).toFinset.card =
          (openedPool cat dishLevel).dedup.length := List.card_toFinset _
      omega
    have hfin : (greedyTake [cur] shuffled).toFinset.card ≤
        (greedyTake [cur] shuffled).length := List.toFinset_card_le _
    omega

lemma greedy_small (cat : Catalog) (dishLevel : Nat) (cur : Dish)
    (shuffled : List Dish) (hcur : cur ∈ openedPool cat dishLevel)
    (hsh : shuffled.Perm (remainderPool cat dishLevel cur))
    (hsmall : (openedPool cat dishLevel).dedup.length < 3) :
    (greedyTake [cur] shuffled).length < 3 ∧
      ∀ x ∈ openedPool cat dishLevel, x ∈ greedyTake [cur] shuffled := by
  have hnd : (greedyTake [cur] shuffled).Nodup :=
    greedyTake_nodup shuffled [cur] (by simp)
  have hsub : (greedyTake [cur] shuffled).toFinset ⊆
      (cur :: shuffled).toFinset := by
    intro x hx
    rw [List.mem_toFinset] at hx ⊢
    simpa using mem_greedyTake shuffled [cur] x hx
  have hlen : (greedyTake [cur] shuffled).length < 3 := by
    have h1 : (greedyTake [cur] shuffled).toFinset.card =
        (greedyTake [cur] shuffled).length :=
      List.toFinset_card_of_nodup hnd
    have h2 := Finset.card_le_card hsub
    have h3 := anchor_shuffled_card cat dishLevel cur shuffled hcur hsh
    have h4 : (openedPool cat dishLevel).toFinset.card =
        (openedPool cat dishLevel).dedup.length := List.card_toFinset _
    omega
  refine ⟨hlen, ?_⟩
  intro x hx
  rcases greedyTake_full shuffled [cur] (by simp) with h3 | hall
  · omega
  · rcases Decidable.em (x = cur) with he | he
    · exact hall x (by simp [he])
    · refine hall x ?_
      have : x ∈ remainderPool cat dishLevel cur :=
        (mem_remainderPool cat dishLevel cur x).mpr ⟨hx, he⟩
      simp [hsh.mem_iff.mpr this]

lemma nodup_names_of_sub (opened r : List Dish)
    (hnames : (opened.map Prod.fst).Nodup) (hr : r.Nodup)
    (hsub : ∀ x ∈ r, x ∈ opened) : (r.map Prod.fst).Nodup := by
  refine hr.map_on ?_
  intro x hx y hy hxy
  exact List.inj_on_of_nodup_map hnames (hsub x hx) (hsub y hy) hxy

/-- C1. For every level L ≥ 0 and every outcome of the randomness source
(the anchor index and the shuffle permutation), `generate_regular_order L`
returns a list of exactly 3 pairs whose dish names are pairwise distinct
and all of which belong to the unlocked pool, the union of the catalog's
levels 0..min(L,3). The catalog is a parameter (its data file is not
among the sources) assumed well formed: dish names in the unlocked pool
are pairwise distinct and the pool holds at least 3 distinct dishes. -/
theorem claim_C1_generate_regular_order (cat : Catalog) (L choiceIdx fuelN : Nat)
    (cp : List Dish) (cur : Dish) (shuffled : List Dish)
    (hcp : currentPool cat (min L 3) = some cp)
    (hcur : cp[choiceIdx]? = some cur)
    (hsh : shuffled.Perm (remainderPool cat (min L 3) cur))
    (hnames : ((openedPool cat (min L 3)).map Prod.fst).Nodup)
    (hbig : 3 ≤ (openedPool cat (min L 3)).dedup.length) :
    ∃ r, generate_regular_order cat L choiceIdx shuffled fuelN = .ok r ∧
      r.length = 3 ∧ (r.map Prod.fst).Nodup ∧
      ∀ d ∈ r, d ∈ openedPool cat (min L 3) := by
  have hcuro : cur ∈ openedPool cat (min L 3) :=
    currentPool_subset cat (min L 3) hcp (List.getElem?_mem hcur)
  have hlen3 : (greedyTake [cur] shuffled).length = 3 :=
    greedy_length_eq_three cat (min L 3) cur shuffled hcuro hsh hbig
  have hsub : ∀ d ∈ greedyTake [cur] shuffled, d ∈ openedPool cat (min L 3) := by
    intro d hd
    rcases mem_greedyTake shuffled [cur] d hd with hm | hm
    · simp only [List.mem_singleton] at hm
      exact hm ▸ hcuro
    · exact ((mem_remainderPool cat (min L 3) cur d).mp
        (hsh.mem_iff.mp hm)).1
  refine ⟨greedyTake [cur] shuffled, ?_, hlen3, ?_, hsub⟩
  · simp only [generate_regular_order, hcp, hcur]
    rw [if_neg (by omega), List.take_of_length_le (le_of_eq hlen3)]
  · exact nodup_names_of_sub _ _ hnames
      (greedyTake_nodup shuffled [cur] (by simp)) hsub

/-- A sample catalog: three distinct level-0 dishes. -/
def catSample : Catalog := fun lv =>
  if lv = 0 then some [("tea", 2), ("bun", 3), ("soup", 4)] else none

/-- Witness for C1 at the sample catalog, level 0, anchor index 0 and the
identity shuffle. -/
theorem claim_C1_witness :
    ∃ r, generate_regular_order catSample 0 0
        [("bun", 3), ("soup", 4)] 5 = .ok r ∧
      r.length = 3 ∧ (r.map Prod.fst).Nodup ∧
      ∀ d ∈ r, d ∈ openedPool catSample (min 0 3) :=
  claim_C1_generate_regular_order catSample 0 0 5
    [("tea", 2), ("bun", 3), ("soup", 4)] ("tea", 2)
    [("bun", 3), ("soup", 4)] (by decide) (by decide) (by decide)
    (by decide) (by decide)

lemma backfillPass_id : ∀ (l take : List Dish), (∀ d ∈ l, d ∈ take) →
    backfillPass take l = take := by
  intro l
  induction l with
  | nil => intro take _; rfl
  | cons d rest ih =>
      intro take h
      have hd : d ∈ take := h d (by simp)
      rw [backfillPass]
      simp only [hd, if_pos, if_true]
      rcases Decidable.em (take.length = 3) with h3 | h3
      · rw [if_pos h3]
      · rw [if_neg h3]
        exact ih take (fun x hx => h x (by simp [hx]))

lemma backfillLoop_stuck (l0 take : List Dish) (hlen : take.length < 3)
    (hsub : ∀ d ∈ l0, d ∈ take) :
    ∀ n, backfillLoop l0 n take = .error .fuel := by
  intro n
  induction n with
  | zero => rfl
  | succ n ih =>
      rw [backfillLoop, if_pos hlen, backfillPass_id l0 take hsub]
      exact ih

lemma generate_eq_greedy (cat : Catalog) (L choiceIdx fuelN : Nat)
    (cp : List Dish) (cur : Dish) (shuffled : List Dish)
    (hcp : currentPool cat (min L 3) = some cp)
    (hcur : cp[choiceIdx]? = some cur)
    (hsh : shuffled.Perm (remainderPool cat (min L 3) cur))
    (hbig : 3 ≤ (openedPool cat (min L 3)).dedup.length) :
    generate_regular_order cat L choiceIdx shuffled fuelN =
      .ok (greedyTake [cur] shuffled) := by
  have hcuro : cur ∈ openedPool cat (min L 3) :=
    currentPool_subset cat (min L 3) hcp (List.getElem?_mem hcur)
  have hlen3 : (greedyTake [cur] shuffled).length = 3 :=
    greedy_length_eq_three cat (min L 3) cur shuffled hcuro hsh hbig
  simp only [generate_regular_order, hcp, hcur]
  rw [if_neg (by omega), List.take_of_length_le (le_of_eq hlen3)]

lemma generate_stuck (cat : Catalog) (L choiceIdx : Nat)
    (cp : List Dish) (cur : Dish) (shuffled : List Dish)
    (hcp : currentPool cat (min L 3) = some cp)
    (hcur : cp[choiceIdx]? = some cur)
    (hsh : shuffled.Perm (remainderPool cat (min L 3) cur))
    (hsmall : (openedPool cat (min L 3)).dedup.length < 3) :
    ∀ fuelN, generate_regular_order cat L choiceIdx shuffled fuelN =
      .error .fuel := by
  intro fuelN
  have hcuro : cur ∈ openedPool cat (min L 3) :=
    currentPool_subset cat (min L 3) hcp (List.getElem?_mem hcur)
  obtain ⟨hlt, hall⟩ :=
    greedy_small cat (min L 3) cur shuffled hcuro hsh hsmall
  obtain ⟨l0, h0⟩ : ∃ l0, cat 0 = some l0 := by
    unfold currentPool at hcp
    rcases h : cat 0 with _ | l0
    · rw [h] at hcp; exact absurd hcp (by simp)
    · exact ⟨l0, rfl⟩
  have hsub : ∀ d ∈ l0, d ∈ greedyTake [cur] shuffled := by
    intro d hd
    exact hall d (mem_openedPool_of_mem_cat cat (min L 3) 0 (Nat.zero_le _)
      (by simp [h0, hd]))
  simp only [generate_regular_order, hcp, hcur, h0]
  rw [if_pos hlt]
  rw [backfillLoop_stuck l0 (greedyTake [cur] shuffled) hlt hsub fuelN]

/-- A degenerate catalog: a single level-0 dish, fewer than 3 dishes in
total. -/
def catDeg : Catalog := fun lv =>
  if lv = 0 then some [("borscht", 1)] else none

/-- Counterexample to C2: on a catalog whose whole unlocked pool holds a
single dish, the backfill loop of `generate_regular_order` does not
terminate. One pass of its body leaves the 1-element selection unchanged
while the guard `len(take) < 3` stays true, and the fuel-bounded model
still reports fuel exhaustion after 100 iterations. -/
theorem claim_C2_counterexample :
    generate_regular_order catDeg 0 0 [] 100 = .error .fuel ∧
    backfillPass [("borscht", 1)] [("borscht", 1)] = [("borscht", 1)] ∧
    [(("borscht", 1) : Dish)].length < 3 :=
  ⟨rfl, rfl, by decide⟩

/-- C2 amended. The backfill phase of `generate_regular_order` terminates
if and only if the unlocked pool (levels 0..min(L,3), which always
contains level 0, hence also the whole level-0 backfill source) holds at
least 3 distinct dishes; when it holds fewer, the backfill loop runs
forever, i.e. exhausts every fuel bound. -/
theorem claim_C2_backfill (cat : Catalog) (L choiceIdx : Nat)
    (cp : List Dish) (cur : Dish) (shuffled : List Dish)
    (hcp : currentPool cat (min L 3) = some cp)
    (hcur : cp[choiceIdx]? = some cur)
    (hsh : shuffled.Perm (remainderPool cat (min L 3) cur)) :
    (3 ≤ (openedPool cat (min L 3)).dedup.length →
      ∀ fuelN, ∃ r,
        generate_regular_order cat L choiceIdx shuffled fuelN = .ok r) ∧
    ((openedPool cat (min L 3)).dedup.length < 3 →
      ∀ fuelN,
        generate_regular_order cat L choiceIdx shuffled fuelN =
          .error .fuel) := by
  constructor
  · intro hbig fuelN
    exact ⟨greedyTake [cur] shuffled,
      generate_eq_greedy cat L choiceIdx fuelN cp cur shuffled hcp hcur hsh
        hbig⟩
  · intro hsmall
    exact generate_stuck cat L choiceIdx cp cur shuffled hcp hcur hsh hsmall

/-- Witness for the amended C2 at two concrete catalogs: a 3-dish
catalog where generation succeeds even with zero fuel, and the
degenerate 1-dish catalog where every fuel bound is exhausted. -/
theorem claim_C2_witness :
    (∃ r, generate_regular_order catSample 0 0
        [("bun", 3), ("soup", 4)] 0 = .ok r) ∧
    generate_regular_order catDeg 0 0 [] 3 = .error .fuel :=
  ⟨(claim_C2_backfill catSample 0 0 [("tea", 2), ("bun", 3), ("soup", 4)]
      ("tea", 2) [("bun", 3), ("soup", 4)] (by decide) (by decide)
      (by decide)).1 (by decide) 0,
    (claim_C2_backfill catDeg 0 0 [("borscht", 1)] ("borscht", 1) []
      (by decide) (by decide) (by decide)).2 (by decide) 3⟩

lemma sum_halves_le : ∀ l : List Int,
    (l.map (fun v => v / 2)).sum ≤ l.sum / 2 := by
  intro l
  induction l with
  | nil => simp
  | cons a l ih =>
      simp only [List.map_cons, List.sum_cons]
      omega

lemma mem_half_map {x : Dish} {tl : List Dish}
    (hx : x ∈ tl.map (fun p : Dish => (p.1, max 1 (p.2 / 2)))) : 1 ≤ x.2 := by
  obtain ⟨y, _, rfl⟩ := List.mem_map.mp hx
  exact le_max_left _ _

lemma halfNewOrder_vals (ds : List Dish) :
    ∀ d ∈ halfNewOrder ds, 1 ≤ d.2 := by
  cases ds with
  | nil => simp [halfNewOrder]
  | cons d tl =>
      simp only [halfNewOrder, List.map_cons]
      split
      · intro x hx
        rcases List.mem_cons.mp hx with h | h
        · subst h; exact le_max_left _ _
        · exact mem_half_map h
      · intro x hx
        rcases List.mem_cons.mp hx with h | h
        · subst h; exact le_max_left _ _
        · exact mem_half_map h

lemma halfNewOrder_sum (ds : List Dish) (hvals : ∀ d ∈ ds, 2 ≤ d.2) :
    sumVals (halfNewOrder ds) = sumVals ds / 2 := by
  cases ds with
  | nil => simp [halfNewOrder, sumVals]
  | cons d tl =>
      have hmax : ∀ x : Dish, x ∈ d :: tl → max 1 (x.2 / 2) = x.2 / 2 := by
        intro x hx
        have h2 := hvals x hx
        have : (1 : Int) ≤ x.2 / 2 := by omega
        exact max_eq_right this
      have hle : sumVals ((d :: tl).map
          (fun p : Dish => (p.1, max 1 (p.2 / 2)))) ≤ sumVals (d :: tl) / 2 := by
        have hmm : ((d :: tl).map
            (fun p : Dish => (p.1, max 1 (p.2 / 2)))) =
            ((d :: tl).map (fun p : Dish => (p.1, p.2 / 2))) :=
          List.map_congr_left (fun x hx => by rw [hmax x hx])
        rw [hmm]
        have h1 : sumVals ((d :: tl).map (fun p : Dish => (p.1, p.2 / 2))) =
            (((d :: tl).map Prod.snd).map (fun v => v / 2)).sum := by
          simp [sumVals, List.map_map, Function.comp_def]
        rw [h1, sumVals]
        exact sum_halves_le _
      have hd2 := hvals d (by simp)
      have hv0 : (1 : Int) ≤ max 1 (d.2 / 2) := le_max_left _ _
      simp only [halfNewOrder, List.map_cons]
      split
      case isTrue hne =>
        have hsc : sumVals ((d.1, max 1 (d.2 / 2)) ::
            tl.map (fun p : Dish => (p.1, max 1 (p.2 / 2)))) =
            max 1 (d.2 / 2) +
              sumVals (tl.map (fun p : Dish => (p.1, max 1 (p.2 / 2)))) := by
          simp [sumVals]
        simp only [sumVals, List.map_cons, List.sum_cons] at hle ⊢
        omega
      case isFalse heq =>
        simp only [sumVals, List.map_cons, List.sum_cons] at heq ⊢
        omega

/-- A rule set that always fires the half-new-order directive. -/
def csHalf : CheckSpecial :=
  fun _ _ => some ("half_tag", ⟨SpecialType.half_new_order, ("", 0)⟩)

/-- A catalog of three distinct 1-point level-0 dishes. -/
def catOnes : Catalog := fun lv =>
  if lv = 0 then some [("a", 1), ("b", 1), ("c", 1)] else none

/-- A freshly created user: level 0, no completed orders, no flags. -/
def userFresh : UserRec := ⟨1, "u", 0, 0, false, false, false, false⟩

/-- Counterexample to C3: with a generated order of three 1-point dishes
(total T = 3), the persisted half order keeps all three values clamped
at 1 by `max(1, ...)`, so its sum is 3 while floor(T/2) = 1; the
adjustment of the first dish is itself clamped and cannot lower the
sum. -/
theorem claim_C3_counterexample :
    vkNewOrderLogic csHalf userFresh none catOnes 0 [("b", 1), ("c", 1)] 9 =
      .ok ([("a", 1), ("b", 1), ("c", 1)], some "half_tag") ∧
    generate_regular_order catOnes 0 0 [("b", 1), ("c", 1)] 9 =
      .ok [("a", 1), ("b", 1), ("c", 1)] ∧
    sumVals [("a", 1), ("b", 1), ("c", 1)] = 3 ∧
    sumVals [("a", 1), ("b", 1), ("c", 1)] / 2 = 1 :=
  ⟨rfl, rfl, by decide, by decide⟩

/-- C3 amended. When the half-new-order directive fires, every point
value of the persisted order is at least 1; and provided every dish
value of the freshly generated order is at least 2, the persisted
values sum exactly to floor(T/2), where T is the generated order's
total. (With 0- or 1-point dishes the `max(1, ...)` clamps can push the
sum above floor(T/2), as the counterexample shows.) -/
theorem claim_C3_half_order (cs : CheckSpecial) (u : UserRec)
    (lo : Option LastOrder) (cat : Catalog) (choiceIdx : Nat)
    (shuffled : List Dish) (fuelN : Nat) (tag : String) (cfg : OrderConfig)
    (ds : List Dish)
    (hsupp : lastWasSpecial u lo = false)
    (hcs : cs (u.total_orders + 1) (flagsOf u) = some (tag, cfg))
    (htype : cfg.type = .half_new_order)
    (hgen : generate_regular_order cat u.level choiceIdx shuffled fuelN =
      .ok ds)
    (hvals : ∀ d ∈ ds, 2 ≤ d.2) :
    vkNewOrderLogic cs u lo cat choiceIdx shuffled fuelN =
      .ok (halfNewOrder ds, some tag) ∧
    sumVals (halfNewOrder ds) = sumVals ds / 2 ∧
    ∀ d ∈ halfNewOrder ds, 1 ≤ d.2 := by
  refine ⟨?_, halfNewOrder_sum ds hvals, halfNewOrder_vals ds⟩
  simp only [vkNewOrderLogic, hsupp, Bool.false_eq_true, if_false, hcs,
    htype, hgen]

/-- A catalog of three distinct 3-point level-0 dishes. -/
def catThrees : Catalog := fun lv =>
  if lv = 0 then some [("a", 3), ("b", 3), ("c", 3)] else none

/-- Witness for the amended C3: a generated order of three 3-point
dishes (T = 9) whose persisted half order sums to floor(9/2) = 4 with
all values at least 1. -/
theorem claim_C3_witness :
    vkNewOrderLogic csHalf userFresh none catThrees 0
        [("b", 3), ("c", 3)] 9 =
      .ok (halfNewOrder [("a", 3), ("b", 3), ("c", 3)], some "half_tag") ∧
    sumVals (halfNewOrder [("a", 3), ("b", 3), ("c", 3)]) =
      sumVals [("a", 3), ("b", 3), ("c", 3)] / 2 ∧
    ∀ d ∈ halfNewOrder [("a", 3), ("b", 3), ("c", 3)], 1 ≤ d.2 :=
  claim_C3_half_order csHalf userFresh none catThrees 0 [("b", 3), ("c", 3)]
    9 "half_tag" ⟨SpecialType.half_new_order, ("", 0)⟩
    [("a", 3), ("b", 3), ("c", 3)] (by decide) rfl rfl rfl (by decide)

/-- C4. If the user's Last Completed Order carries a special tag (such a
user has completed at least one order, so `total_orders > 0`), the next
order generation ignores `check_special_order` entirely — the result is
the plain regular-order pipeline for EVERY rule set `cs` — and the
persisted order always carries no tag. -/
theorem claim_C4_suppression (cs : CheckSpecial) (u : UserRec)
    (lo : LastOrder) (t : String) (cat : Catalog) (choiceIdx : Nat)
    (shuffled : List Dish) (fuelN : Nat)
    (htag : lo.tag = some t) (htot : 0 < u.total_orders) :
    vkNewOrderLogic cs u (some lo) cat choiceIdx shuffled fuelN =
      regularOrderSave cat u.level choiceIdx shuffled fuelN ∧
    ∀ p, vkNewOrderLogic cs u (some lo) cat choiceIdx shuffled fuelN =
      .ok p → p.2 = none := by
  have hsup : lastWasSpecial u (some lo) = true := by
    simp [lastWasSpecial, htag, htot]
  have h1 : vkNewOrderLogic cs u (some lo) cat choiceIdx shuffled fuelN =
      regularOrderSave cat u.level choiceIdx shuffled fuelN := by
    simp only [vkNewOrderLogic, hsup, if_true]
  refine ⟨h1, ?_⟩
  intro p hp
  rw [h1] at hp
  unfold regularOrderSave at hp
  rcases hg : generate_regular_order cat u.level choiceIdx shuffled fuelN
    with ds | e
  · rw [hg] at hp; exact absurd hp (by simp)
  · rw [hg] at hp
    simp only [Except.ok.injEq] at hp
    rw [← hp]

/-- A user with one completed order and no flags. -/
def userVet : UserRec := ⟨2, "v", 0, 1, false, false, false, false⟩

/-- A tagged Last Completed Order. -/
def loTagged : LastOrder := ⟨[("x", 2)], 2, some "student"⟩

/-- Witness for C4: even under a rule set that always fires a special
directive, a tagged last order forces the regular pipeline with no tag. -/
theorem claim_C4_witness :
    vkNewOrderLogic csHalf userVet (some loTagged) catOnes 0
        [("b", 1), ("c", 1)] 9 =
      regularOrderSave catOnes 0 0 [("b", 1), ("c", 1)] 9 ∧
    ∀ p, vkNewOrderLogic csHalf userVet (some loTagged) catOnes 0
        [("b", 1), ("c", 1)] 9 = .ok p → p.2 = none :=
  claim_C4_suppression csHalf userVet loTagged "student" catOnes 0
    [("b", 1), ("c", 1)] 9 rfl (by decide)

/-- C5. When the double-previous directive fires: with a Last Completed
Order present (necessarily untagged, else suppression would apply), the
persisted order keeps the same dish names in the same positions with
every point value doubled; with no Last Completed Order, no special
order is produced and the plain regular-order pipeline runs instead. -/
theorem claim_C5_double_previous (cs : CheckSpecial) (u : UserRec)
    (cat : Catalog) (choiceIdx : Nat) (shuffled : List Dish) (fuelN : Nat)
    (tag : String) (cfg : OrderConfig)
    (hcs : cs (u.total_orders + 1) (flagsOf u) = some (tag, cfg))
    (htype : cfg.type = .double_previous) :
    (∀ lo : LastOrder, lo.tag = none →
      vkNewOrderLogic cs u (some lo) cat choiceIdx shuffled fuelN =
        .ok (lo.dishes.map (fun d => (d.1, d.2 * 2)), some tag)) ∧
    vkNewOrderLogic cs u none cat choiceIdx shuffled fuelN =
      regularOrderSave cat u.level choiceIdx shuffled fuelN := by
  constructor
  · intro lo htag
    have hsup : lastWasSpecial u (some lo) = false := by
      simp [lastWasSpecial, htag]
    simp only [vkNewOrderLogic, hsup, Bool.false_eq_true, if_false, hcs,
      htype]
  · have hsup : lastWasSpecial u none = false := by
      simp [lastWasSpecial]
    simp only [vkNewOrderLogic, hsup, Bool.false_eq_true, if_false, hcs,
      htype]

/-- A rule set that always fires the double-previous directive. -/
def csDouble : CheckSpecial :=
  fun _ _ => some ("double_tag", ⟨SpecialType.double_previous, ("", 0)⟩)

/-- An untagged Last Completed Order with two dishes. -/
def loPlain : LastOrder := ⟨[("x", 2), ("y", 3)], 5, none⟩

/-- Witness for C5: doubling a previous order of values 2 and 3 gives 4
and 6 with names in place, and with no previous order the same directive
degrades to the regular pipeline. -/
theorem claim_C5_witness :
    vkNewOrderLogic csDouble userFresh (some loPlain) catOnes 0
        [("b", 1), ("c", 1)] 9 =
      .ok ([("x", 4), ("y", 6)], some "double_tag") ∧
    vkNewOrderLogic csDouble userFresh none catOnes 0
        [("b", 1), ("c", 1)] 9 =
      regularOrderSave catOnes 0 0 [("b", 1), ("c", 1)] 9 := by
  have h := claim_C5_double_previous csDouble userFresh catOnes 0
    [("b", 1), ("c", 1)] 9 "double_tag"
    ⟨SpecialType.double_previous, ("", 0)⟩ rfl rfl
  exact ⟨h.1 loPlain rfl, h.2⟩

/-- C6. If the invoking user's row exists and the user has an Active
Order, handling the "new" command replies with the already-has-order
message to the invoking peer and returns the store unchanged: nothing is
generated, saved or mutated. -/
theorem claim_C6_new_rejected (cs : CheckSpecial) (db : Db) (uid peer : Int)
    (firstName : String) (cat : Catalog) (choiceIdx : Nat)
    (shuffled : List Dish) (fuelN : Nat) (u : UserRec) (ao : ActiveOrder)
    (hu : db.users.find? (fun x => x.user_id == uid) = some u)
    (hao : get_active_order db u.user_id = some ao) :
    handle_new cs db uid peer firstName cat choiceIdx shuffled fuelN =
      .ok (db, [(peer, .alreadyHasOrder)]) := by
  simp only [handle_new, fetch_user, hu, hao]

/-- A store holding one user who already has an Active Order. -/
def dbBusy : Db := ⟨[userVet], [(2, ⟨[("x", 2)], none⟩)], []⟩

/-- Witness for C6 at the one-user store with an Active Order. -/
theorem claim_C6_witness :
    handle_new csHalf dbBusy 2 77 "v" catOnes 0 [("b", 1), ("c", 1)] 9 =
      .ok (dbBusy, [(77, .alreadyHasOrder)]) :=
  claim_C6_new_rejected csHalf dbBusy 2 77 "v" catOnes 0
    [("b", 1), ("c", 1)] 9 userVet ⟨[("x", 2)], none⟩ rfl rfl

/-- C7. For a poll response carrying a `failed` field: code 1 makes the
loop adopt the ts supplied in the same payload (keeping the old ts when
none is supplied) while keeping the same server and key; any other code
makes it refetch the full server/key/ts triple for the next poll. -/
theorem claim_C7_failed_codes (env : IterEnv) (cur : Cursor) (data : LPData)
    (fresh : Cursor) (hpoll : env.poll = .ok data) :
    (data.failed = some 1 →
      loopIter env cur = .ok ⟨cur.server, cur.key, data.ts.getD cur.ts⟩) ∧
    (∀ code, data.failed = some code → code ≠ 1 → env.refetch = .ok fresh →
      loopIter env cur = .ok fresh) := by
  constructor
  · intro h1
    simp only [loopIter, hpoll, h1]
    rw [if_pos trivial]
  · intro code hc hne hre
    simp only [loopIter, hpoll, hc, hre]
    rw [if_neg hne]

/-- The cursor in use before the iteration under study. -/
def cur0 : Cursor := ⟨"s", "k", "1"⟩

/-- The cursor a successful refetch would return. -/
def freshCur : Cursor := ⟨"s2", "k2", "9"⟩

/-- Iteration environment whose poll returns failed code 1 with a new
ts. -/
def envFail1 : IterEnv :=
  ⟨.ok ⟨some 1, some "500", []⟩, .ok freshCur, fun _ _ _ => .ok (),
    fun _ => none, none⟩

/-- Iteration environment whose poll returns failed code 2. -/
def envFail2 : IterEnv :=
  ⟨.ok ⟨some 2, none, []⟩, .ok freshCur, fun _ _ _ => .ok (),
    fun _ => none, none⟩

/-- Witness for C7: failed 1 adopts ts "500" keeping server and key;
failed 2 swaps in the freshly fetched triple. -/
theorem claim_C7_witness :
    loopIter envFail1 cur0 = .ok ⟨"s", "k", "500"⟩ ∧
    loopIter envFail2 cur0 = .ok freshCur :=
  ⟨(claim_C7_failed_codes envFail1 cur0 ⟨some 1, some "500", []⟩ freshCur
      rfl).1 rfl,
    (claim_C7_failed_codes envFail2 cur0 ⟨some 2, none, []⟩ freshCur
      rfl).2 2 rfl (by decide) rfl⟩

/-- Iteration environment where the poll reports failed code 2 and the
subsequent cursor refetch raises. -/
def envCrash : IterEnv :=
  ⟨.ok ⟨some 2, none, []⟩, .error "down", fun _ _ _ => .ok (),
    fun _ => none, none⟩

/-- Counterexample to C8: a response with failed code 2 followed by a
raising `get_longpoll_server` call makes the iteration raise out of the
`while True:` body — that call sits outside every `try`, so the loop
terminates instead of recovering. -/
theorem claim_C8_counterexample :
    loopIter envCrash cur0 = .error (.refetchFailed "down") := rfl

lemma processUpdates_ok (env : IterEnv)
    (hh : ∀ c f p, env.runHandler c f p = .ok ()) :
    ∀ l : List VkUpdate, processUpdates env l = .ok () := by
  intro l
  induction l with
  | nil => rfl
  | cons u rest ih =>
      rw [processUpdates]
      rcases Decidable.em (u.type ≠ "message_new") with ht | ht
      · rw [if_pos ht]; exact ih
      · rw [if_neg ht]
        rcases routeMessage env.parsePayload env.allowedPeer u.msg with
          ⟨c, f, p⟩ | p | _
        · simp only [hh c f p]; exact ih
        · exact ih
        · exact ih

/-- C8 amended. A failure of the poll request or of the JSON decode is
always recovered (even when the refetch after it fails, the loop keeps
the stale cursor and continues); and every iteration completes normally
provided the cursor refetch succeeds and no command handler raises. The
claim as stated is false: a raising refetch after a failed code other
than 1, or a raising handler, escapes the body uncaught and terminates
the loop (see the counterexample). -/
theorem claim_C8_loop_survival (env : IterEnv) (cur fresh : Cursor)
    (hre : env.refetch = .ok fresh)
    (hh : ∀ c f p, env.runHandler c f p = .ok ()) :
    ∃ c2, loopIter env cur = .ok c2 := by
  rcases hp : env.poll with _ | data
  · refine ⟨fresh, ?_⟩
    simp only [loopIter, hp, hre]
  · rcases hf : data.failed with _ | code
    · refine ⟨⟨cur.server, cur.key, data.ts.getD cur.ts⟩, ?_⟩
      simp only [loopIter, hp, hf, processUpdates_ok env hh data.updates]
    · rcases Decidable.em (code = 1) with h1 | h1
      · refine ⟨⟨cur.server, cur.key, data.ts.getD cur.ts⟩, ?_⟩
        simp only [loopIter, hp, hf, h1]
        rw [if_pos trivial]
      · refine ⟨fresh, ?_⟩
        simp only [loopIter, hp, hf, hre]
        rw [if_neg h1]

/-- Iteration environment with a normal response carrying one
message-new update that dispatches to a handler. -/
def envGood : IterEnv :=
  ⟨.ok ⟨none, some "7", [⟨"message_new",
      ⟨some "/new", none, some 1, some 2⟩⟩]⟩,
    .ok freshCur, fun _ _ _ => .ok (), fun _ => none, none⟩

/-- Witness for the amended C8: with a succeeding refetch and
non-raising handlers, an iteration that dispatches a command completes
normally. -/
theorem claim_C8_witness : ∃ c2, loopIter envGood cur0 = .ok c2 :=
  claim_C8_loop_survival envGood cur0 freshCur rfl (fun _ _ _ => rfl)

lemma send_message_ok (fails : Nat → Bool) (st : SendLog) (peer : Int)
    (t : MsgText) :
    send_message fails st peer t =
      .ok ⟨st.calls + 1, st.sent ++ [(peer, t, !fails st.calls)]⟩ := by
  rcases h : fails st.calls with _ | _ <;>
    simp [send_message, vk_api_send, h]

lemma topTry_group (fails : Nat → Bool) (uid peer : Int) (st : SendLog)
    (body : MsgText) (hpeer : peer ≠ uid) :
    topTry fails uid peer st body =
      ⟨st.calls + 2, st.sent ++ [(uid, body, !fails st.calls),
        (peer, .topSentDm, !fails (st.calls + 1))]⟩ := by
  simp [topTry, topTryBlock, send_message_ok, hpeer, Bind.bind,
    Except.bind]

/-- Counterexample to C9: with the VK API failing exactly the first
`messages.send` call, an admin invoking top-stats from a group (peer 20,
admin 10) gets a failed private send, yet the group receives the
success acknowledgment and the failure notice is never sent —
`send_message` swallows its own exceptions, so the `except` branch of
`handle_top` that would send the failure notice is unreachable. -/
theorem claim_C9_counterexample :
    (handle_top (fun n => n == 0) true [⟨"u", 0, 1⟩] 10 20 ⟨0, []⟩).sent =
      [(10, .statsTable, false), (20, .topSentDm, true)] ∧
    ∀ x ∈ (handle_top (fun n => n == 0) true [⟨"u", 0, 1⟩] 10 20
        ⟨0, []⟩).sent, x.2.1 ≠ MsgText.topDmFail :=
  ⟨rfl, by decide⟩

/-- C9 amended. When an admin invokes top-stats from a group context
with a non-empty user table, the full stats table send is attempted to
the admin privately and the group always receives the short
acknowledgment — regardless of whether the private send succeeded; the
failure notice can never be emitted, because the message sender catches
every send failure itself and so the `except` branch of `handle_top`
is dead code. -/
theorem claim_C9_top_stats (fails : Nat → Bool) (rows : List StatsRow)
    (uid peer : Int) (st : SendLog)
    (hrows : rows ≠ []) (hpeer : peer ≠ uid) :
    handle_top fails true rows uid peer st =
      ⟨st.calls + 2, st.sent ++ [(uid, .statsTable, !fails st.calls),
        (peer, .topSentDm, !fails (st.calls + 1))]⟩ ∧
    ∀ x ∈ (handle_top fails true rows uid peer st).sent,
      x.2.1 = MsgText.topDmFail → x ∈ st.sent := by
  have hemp : rows.isEmpty = false := by
    simpa [List.isEmpty_iff] using hrows
  have h1 : handle_top fails true rows uid peer st =
      ⟨st.calls + 2, st.sent ++ [(uid, .statsTable, !fails st.calls),
        (peer, .topSentDm, !fails (st.calls + 1))]⟩ := by
    simp only [handle_top, if_true, hemp, Bool.false_eq_true, if_false]
    exact topTry_group fails uid peer st .statsTable hpeer
  refine ⟨h1, ?_⟩
  intro x hx hfail
  rw [h1] at hx
  simp only [List.mem_append, List.mem_cons, List.mem_singleton] at hx
  rcases hx with hx | hx | hx | hx
  · exact hx
  · rw [hx] at hfail; simp at hfail
  · rw [hx] at hfail; simp at hfail
  · simp at hx

/-- Witness for the amended C9 at the environment of the
counterexample: the exact pair of send attempts, with no failure
notice. -/
theorem claim_C9_witness :
    handle_top (fun n => n == 0) true [⟨"u", 0, 1⟩] 10 20 ⟨0, []⟩ =
      ⟨2, [(10, .statsTable, false), (20, .topSentDm, true)]⟩ :=
  (claim_C9_top_stats (fun n => n == 0) [⟨"u", 0, 1⟩] 10 20 ⟨0, []⟩
    (by decide) (by decide)).1

lemma dropWhile_of_all {p : Char → Bool} :
    ∀ l : List Char, l.all p → l.dropWhile p = [] := by
  intro l
  induction l with
  | nil => intro _; rfl
  | cons c rest ih =>
      intro h
      simp only [List.all_cons, Bool.and_eq_true] at h
      rw [List.dropWhile_cons_of_pos h.1]
      exact ih h.2

/-- C10. A `message_new` event whose text is empty or all whitespace is
dropped by the dispatcher before the button payload is inspected: the
routing returns skip for every payload and payload decoder, so no
command handler is ever invoked for such an event. -/
theorem claim_C10_blank_text (parsePayload : String → Option String)
    (allowedPeer : Option Int) (m : VkMsg)
    (hblank : (m.text.getD "").toList.all isPySpace) :
    routeMessage parsePayload allowedPeer m = .skip := by
  have hstrip : pyStrip (m.text.getD "") = "" := by
    unfold pyStrip
    rw [dropWhile_of_all _ hblank]
    rfl
  simp [routeMessage, hstrip]

/-- Witness for C10: a button press carrying only whitespace text and a
payload that decodes to the "new" command is still skipped. -/
theorem claim_C10_witness :
    routeMessage (fun _ => some "new") none
      ⟨some " \t ", some "anything", some 1, some 2⟩ = .skip :=
  claim_C10_blank_text (fun _ => some "new") none
    ⟨some " \t ", some "anything", some 1, some 2⟩ (by decide)
